import Mathlib

/-!
# Verification of the hands-free VAD / barge-in engine (`src/app.py`)

Shallow embedding of the voice-activity-detection, interruption, echo-suppression
and session state-machine logic of `FixedAdvancedVAD`, `CircularAudioBuffer` and
`FixedHandsFreeSession` in `src/app.py`.  Time stamps and amplitudes are modelled
as rationals; Python `time.time()` reads are made explicit `now` parameters.
-/

set_option maxHeartbeats 1000000

namespace VoiceChat

/-- The `ConversationState` enum of `app.py`. -/
inductive ConversationState where
  | init
  | listening
  | speech_detected
  | processing
  | speaking
  | interrupted
  | error
  | paused
deriving DecidableEq, Repr

/-- An `AudioChunk` dataclass: raw bytes, arrival time, precomputed amplitude. -/
structure AudioChunk where
  data : List (Fin 256)
  timestamp : ℚ
  amplitude : ℚ
  chunk_id : ℕ
  is_echo_suppressed : Bool
deriving DecidableEq, Repr

/-- Append to a `collections.deque(maxlen := maxlen)`: a full deque drops its
oldest elements from the front. -/
def dequeAppend {α : Type} (maxlen : ℕ) (xs : List α) (x : α) : List α :=
  let ys := xs ++ [x]
  if maxlen < ys.length then ys.drop (ys.length - maxlen) else ys

/-- The VAD-relevant entries of `HANDS_FREE_CONFIG`, plus the config fields the
`FixedAdvancedVAD.__init__` copies onto `self`.  (The Python object stores these
on the instance; they are immutable after construction, so they are split off
from the mutable `VADState`.) -/
structure VADConfig where
  vad_threshold : ℚ
  vad_hang_time_ms : ℚ
  vad_attack_time_ms : ℚ
  min_speech_duration_ms : ℚ
  interrupt_threshold : ℚ
  interrupt_confirmation_ms : ℚ
  interrupt_cooldown_ms : ℚ
  interrupt_min_speaking_time_ms : ℚ
  echo_suppression_duration_ms : ℚ
  echo_suppression_factor : ℚ
deriving DecidableEq, Repr

/-- The concrete values of `HANDS_FREE_CONFIG` in `app.py`. -/
def HANDS_FREE_CONFIG : VADConfig where
  vad_threshold := 15/1000
  vad_hang_time_ms := 800
  vad_attack_time_ms := 300
  min_speech_duration_ms := 600
  interrupt_threshold := 25/1000
  interrupt_confirmation_ms := 500
  interrupt_cooldown_ms := 1000
  interrupt_min_speaking_time_ms := 1000
  echo_suppression_duration_ms := 2000
  echo_suppression_factor := 3/10

/-- The mutable state of a `FixedAdvancedVAD` instance. -/
structure VADState where
  is_speech_active : Bool
  speech_start_time : ℚ
  last_speech_time : ℚ
  potential_speech_start : ℚ
  interrupt_candidate_start : ℚ
  last_interrupt_time : ℚ
  speaking_start_time : ℚ
  interrupt_detection_enabled : Bool
  amplitude_window : List ℚ
  long_term_noise : List ℚ
  echo_suppression_until : ℚ
deriving DecidableEq, Repr

/-- The fresh VAD state built by `FixedAdvancedVAD.__init__`. -/
def VADState.initial : VADState where
  is_speech_active := false
  speech_start_time := 0
  last_speech_time := 0
  potential_speech_start := 0
  interrupt_candidate_start := 0
  last_interrupt_time := 0
  speaking_start_time := 0
  interrupt_detection_enabled := false
  amplitude_window := []
  long_term_noise := []
  echo_suppression_until := 0

/-- `FixedAdvancedVAD.set_echo_suppression`; the Python `time.time()` call is the
explicit `now` argument. -/
def set_echo_suppression (v : VADState) (now duration_ms : ℚ) : VADState :=
  { v with echo_suppression_until := now + duration_ms / 1000 }

/-- `FixedAdvancedVAD.enable_interrupt_detection`. -/
def enable_interrupt_detection (v : VADState) (speaking_started : Bool) (now : ℚ) :
    VADState :=
  if speaking_started then
    { v with interrupt_detection_enabled := true
             speaking_start_time := now
             interrupt_candidate_start := 0 }
  else
    { v with interrupt_detection_enabled := false
             speaking_start_time := 0
             interrupt_candidate_start := 0 }

/-- `FixedAdvancedVAD.disable_interrupt_detection`. -/
def disable_interrupt_detection (v : VADState) : VADState :=
  { v with interrupt_detection_enabled := false
           speaking_start_time := 0
           interrupt_candidate_start := 0 }

/-- The optional-key part of the result dict of `process_chunk` plus the keys
that are always present. `none` models an absent dictionary key. -/
structure VADResult where
  timestamp : ℚ
  amplitude : ℚ
  smooth_amplitude : ℚ
  effective_amplitude : ℚ
  adaptive_threshold : ℚ
  is_speech_active : Bool
  is_echo_suppressed : Bool
  current_state : ConversationState
  speech_started : Bool
  speech_start_time : Option ℚ
  speech_ended : Bool
  speech_duration_ms : Option ℚ
  should_process : Option Bool
  interrupt_detected : Bool
  interrupt_amplitude : Option ℚ
deriving DecidableEq, Repr

/-- Outcome of the main speech-detection section of `process_chunk`
(`=== ОСНОВНАЯ ДЕТЕКЦИЯ РЕЧИ ===`): the updated speech-tracking fields of the
VAD, plus the optional result keys that section writes. -/
structure SpeechOut where
  is_speech_active : Bool
  speech_start_time : ℚ
  last_speech_time : ℚ
  potential_speech_start : ℚ
  speech_started : Bool
  speech_started_time : Option ℚ
  speech_ended : Bool
  speech_duration_ms : Option ℚ
  should_process : Option Bool
deriving DecidableEq, Repr

/-- Speech-detection section of `FixedAdvancedVAD.process_chunk` (app.py lines
227-263).  `hasVoice` is `effective_amplitude > adaptive_threshold`; `active`,
`sst`, `lst`, `pot` are the incoming `is_speech_active`, `speech_start_time`,
`last_speech_time` and `potential_speech_start`.  Note `should_process` compares
against the module-level `HANDS_FREE_CONFIG`, exactly as the Python does. -/
def speechStep (cfg : VADConfig) (hasVoice : Bool) (t : ℚ)
    (active : Bool) (sst lst pot : ℚ) : SpeechOut :=
  if hasVoice then
    if active = false then
      if pot = 0 then
        { is_speech_active := active, speech_start_time := sst,
          last_speech_time := t, potential_speech_start := t,
          speech_started := false, speech_started_time := none,
          speech_ended := false, speech_duration_ms := none,
          should_process := none }
      else if (t - pot) * 1000 ≥ cfg.vad_attack_time_ms then
        { is_speech_active := true, speech_start_time := pot,
          last_speech_time := t, potential_speech_start := pot,
          speech_started := true, speech_started_time := some pot,
          speech_ended := false, speech_duration_ms := none,
          should_process := none }
      else
        { is_speech_active := active, speech_start_time := sst,
          last_speech_time := t, potential_speech_start := pot,
          speech_started := false, speech_started_time := none,
          speech_ended := false, speech_duration_ms := none,
          should_process := none }
    else
      { is_speech_active := active, speech_start_time := sst,
        last_speech_time := t, potential_speech_start := pot,
        speech_started := false, speech_started_time := none,
        speech_ended := false, speech_duration_ms := none,
        should_process := none }
  else
    -- silence: `potential_speech_start` is reset unconditionally
    if active = true then
      if (t - lst) * 1000 ≥ cfg.vad_hang_time_ms then
        { is_speech_active := false, speech_start_time := sst,
          last_speech_time := lst, potential_speech_start := 0,
          speech_started := false, speech_started_time := none,
          speech_ended := true,
          speech_duration_ms := some ((lst - sst) * 1000),
          should_process :=
            some (decide ((lst - sst) * 1000 ≥ HANDS_FREE_CONFIG.min_speech_duration_ms)) }
      else
        { is_speech_active := active, speech_start_time := sst,
          last_speech_time := lst, potential_speech_start := 0,
          speech_started := false, speech_started_time := none,
          speech_ended := false, speech_duration_ms := none,
          should_process := none }
    else
      { is_speech_active := active, speech_start_time := sst,
        last_speech_time := lst, potential_speech_start := 0,
        speech_started := false, speech_started_time := none,
        speech_ended := false, speech_duration_ms := none,
        should_process := none }

/-- Interruption-detection section of `FixedAdvancedVAD.process_chunk` (app.py
lines 265-298).  Returns the updated `interrupt_candidate_start`,
`last_interrupt_time`, and whether `interrupt_detected` was set. -/
def interruptStep (cfg : VADConfig) (st : ConversationState) (enabled : Bool)
    (spkStart eff t cand lastInt : ℚ) : ℚ × ℚ × Bool :=
  if st = ConversationState.speaking ∧ enabled = true ∧ eff > cfg.interrupt_threshold then
    if (t - lastInt) * 1000 < cfg.interrupt_cooldown_ms then
      (cand, lastInt, false)          -- in cooldown: ignore
    else if (t - spkStart) * 1000 < cfg.interrupt_min_speaking_time_ms then
      (cand, lastInt, false)          -- assistant has not spoken long enough: ignore
    else if cand = 0 then
      (t, lastInt, false)             -- start tracking a potential interruption
    else if (t - cand) * 1000 ≥ cfg.interrupt_confirmation_ms then
      (0, t, true)                    -- interruption confirmed
    else
      (cand, lastInt, false)
  else
    (if cand > 0 then 0 else cand, lastInt, false)

/-- `FixedAdvancedVAD.process_chunk` (app.py lines 190-300): window updates,
adaptive threshold, echo suppression, then the speech-detection and
interruption-detection sections. -/
def process_chunk (cfg : VADConfig) (s : VADState) (c : AudioChunk)
    (st : ConversationState) : VADState × VADResult :=
  let t := c.timestamp
  let amplitude := c.amplitude
  let aw := dequeAppend 5 s.amplitude_window amplitude
  let ln := dequeAppend 50 s.long_term_noise amplitude
  let smooth_amplitude := aw.sum / (aw.length : ℚ)
  let adaptive_threshold :=
    if 10 < ln.length then
      max cfg.vad_threshold ((((ln.insertionSort (· ≤ ·)).take 20).sum / 20) * (5/2))
    else cfg.vad_threshold
  let isEcho := decide (t < s.echo_suppression_until)
  let effective_amplitude :=
    if isEcho then smooth_amplitude * cfg.echo_suppression_factor else smooth_amplitude
  let hasVoice := decide (effective_amplitude > adaptive_threshold)
  let sp := speechStep cfg hasVoice t s.is_speech_active s.speech_start_time
      s.last_speech_time s.potential_speech_start
  let ir := interruptStep cfg st s.interrupt_detection_enabled s.speaking_start_time
      effective_amplitude t s.interrupt_candidate_start s.last_interrupt_time
  ({ is_speech_active := sp.is_speech_active
     speech_start_time := sp.speech_start_time
     last_speech_time := sp.last_speech_time
     potential_speech_start := sp.potential_speech_start
     interrupt_candidate_start := ir.1
     last_interrupt_time := ir.2.1
     speaking_start_time := s.speaking_start_time
     interrupt_detection_enabled := s.interrupt_detection_enabled
     amplitude_window := aw
     long_term_noise := ln
     echo_suppression_until := s.echo_suppression_until },
   { timestamp := t
     amplitude := amplitude
     smooth_amplitude := smooth_amplitude
     effective_amplitude := effective_amplitude
     adaptive_threshold := adaptive_threshold
     is_speech_active := s.is_speech_active
     is_echo_suppressed := c.is_echo_suppressed || isEcho
     current_state := st
     speech_started := sp.speech_started
     speech_start_time := sp.speech_started_time
     speech_ended := sp.speech_ended
     speech_duration_ms := sp.speech_duration_ms
     should_process := sp.should_process
     interrupt_detected := ir.2.2
     interrupt_amplitude := if ir.2.2 then some effective_amplitude else none })

/-- The VAD state after feeding the first `n` chunks of the trace `tr` (each
trace element is the chunk together with the session state passed as
`current_state` for that call). -/
def stateAt (cfg : VADConfig) (s₀ : VADState)
    (tr : ℕ → AudioChunk × ConversationState) : ℕ → VADState
  | 0 => s₀
  | n + 1 => (process_chunk cfg (stateAt cfg s₀ tr n) (tr n).1 (tr n).2).1

/-- The result dict returned by the `n`-th `process_chunk` call of the trace. -/
def resultAt (cfg : VADConfig) (s₀ : VADState)
    (tr : ℕ → AudioChunk × ConversationState) (n : ℕ) : VADResult :=
  (process_chunk cfg (stateAt cfg s₀ tr n) (tr n).1 (tr n).2).2

/-- The adaptive threshold exactly as claim C4 words it: the noise floor is the
mean of the lowest 40% of the noise window, used once the window has at least
10 samples, and is scaled by 3. -/
def adaptiveThresholdClaim (base : ℚ) (window : List ℚ) : ℚ :=
  if 10 ≤ window.length then
    let k := window.length * 2 / 5
    max base ((((window.insertionSort (· ≤ ·)).take k).sum / (k : ℚ)) * 3)
  else base

/-! ## Amplitude computation (`FixedHandsFreeSession._calculate_amplitude`) -/

/-- Signed decoding of a single byte: `int.from_bytes` of a 1-byte slice with
`signed=True` (this is what Python does with the trailing byte of an odd-length
buffer, since the slice `audio_data[i:i+2]` is then one byte long). -/
def decodeByte (b : Fin 256) : ℤ :=
  if (b.val : ℤ) ≥ 128 then (b.val : ℤ) - 256 else (b.val : ℤ)

/-- Signed little-endian decoding of a 2-byte slice
(`int.from_bytes(audio_data[i:i+2], byteorder='little', signed=True)`). -/
def decode16 (b0 b1 : Fin 256) : ℤ :=
  let v : ℤ := (b0.val : ℤ) + 256 * (b1.val : ℤ)
  if v ≥ 32768 then v - 65536 else v

/-- The sample list `_calculate_amplitude` builds: 2-byte little-endian signed
slices taken at offsets `0, 2, 4, ...`; an odd-length buffer ends in a single
1-byte slice. -/
def decodeSamples : List (Fin 256) → List ℤ
  | [] => []
  | [b] => [decodeByte b]
  | b0 :: b1 :: rest => decode16 b0 b1 :: decodeSamples rest

/-- `sum(s * s for s in samples)`. -/
def sumSquares (l : List ℤ) : ℤ := (l.map (fun s => s * s)).sum

/-- `sum(s*s for s in samples) / len(samples)` as an exact rational. -/
def meanSquare (audio : List (Fin 256)) : ℚ :=
  (sumSquares (decodeSamples audio) : ℚ) / ((decodeSamples audio).length : ℚ)

/-- `FixedHandsFreeSession._calculate_amplitude` (app.py lines 795-814): `0.0`
for fewer than two bytes, otherwise `rms / 32768` with
`rms = (sum(s*s)/len(samples)) ** 0.5`. -/
noncomputable def calculate_amplitude (audio : List (Fin 256)) : ℝ :=
  if audio.length < 2 then 0
  else Real.sqrt ((meanSquare audio : ℚ) : ℝ) / 32768

/-! ## Circular audio buffer (`CircularAudioBuffer`) -/

/-- The state of a `CircularAudioBuffer`. -/
structure BufferState where
  max_size : ℕ
  buffer : List AudioChunk
  speech_start_index : Option ℕ
  total_chunks : ℕ
deriving DecidableEq, Repr

/-- `CircularAudioBuffer.add_chunk`: stamps the chunk id and appends to the
bounded deque. -/
def add_chunk (b : BufferState) (c : AudioChunk) : BufferState :=
  let c' := { c with chunk_id := b.total_chunks }
  { b with buffer := dequeAppend b.max_size b.buffer c',
           total_chunks := b.total_chunks + 1 }

/-- `CircularAudioBuffer.mark_speech_start` (app.py lines 325-331): records the
index of the first buffered chunk whose timestamp is within 150ms of the given
one; if no chunk qualifies, nothing is assigned. -/
def mark_speech_start (b : BufferState) (timestamp : ℚ) : BufferState :=
  match b.buffer.findIdx? (fun c => decide (|c.timestamp - timestamp| < 15/100)) with
  | some i => { b with speech_start_index := some i }
  | none => b

/-- `CircularAudioBuffer.clear_speech_markers`. -/
def clear_speech_markers (b : BufferState) : BufferState :=
  { b with speech_start_index := none }

/-- The accumulation loop of `extract_speech_segment`: sets the `speech_started`
flag at the first chunk at or past the start timestamp, collects data from then
on, and breaks after the first collected chunk at or past the end timestamp. -/
def collectChunks (chunks : List AudioChunk) (started : Bool) (startTs endTs : ℚ) :
    List (List (Fin 256)) :=
  match chunks with
  | [] => []
  | c :: rest =>
    let started' := started || decide (c.timestamp ≥ startTs)
    if started' = true then
      if c.timestamp ≥ endTs then [c.data]
      else c.data :: collectChunks rest started' startTs endTs
    else collectChunks rest started' startTs endTs

/-- `CircularAudioBuffer.extract_speech_segment` (app.py lines 333-355).
`Except.error ()` models the `IndexError` Python would raise when the recorded
start index is no longer a valid position of the (non-empty) deque; `Except.ok
none` is Python's `return None`. -/
def extract_speech_segment (b : BufferState) (end_timestamp : ℚ) :
    Except Unit (Option (List (Fin 256))) :=
  match b.speech_start_index with
  | none => Except.ok none
  | some idx =>
    match b.buffer with
    | [] => Except.ok none
    | c0 :: rest =>
      if idx = 0 then
        let collected := collectChunks (c0 :: rest) false c0.timestamp end_timestamp
        if collected = [] then Except.ok none else Except.ok (some collected.flatten)
      else if hlt : idx < (c0 :: rest).length then
        let collected :=
          collectChunks (c0 :: rest) false ((c0 :: rest).get ⟨idx, hlt⟩).timestamp
            end_timestamp
        if collected = [] then Except.ok none else Except.ok (some collected.flatten)
      else Except.error ()

/-! ## Session state machine (`FixedHandsFreeSession`) -/

/-- The `type` tags of the events the session sends over the websocket. -/
inductive EventType where
  | session_ready
  | state_changed
  | speech_detection
  | transcription
  | llm_response
  | processing_stage
  | processing_complete
  | tts_start
  | audio_chunk
  | tts_complete
  | interrupted
  | session_paused
  | session_resumed
  | session_stats
  | error
  | audio_status
deriving DecidableEq, Repr

/-- The session-level mutable state of a `FixedHandsFreeSession` (conversation
history and asyncio task handles are outside this model). -/
structure Session where
  state : ConversationState
  vad : VADState
  buffer : BufferState
  is_active : Bool
  interruptions_count : ℕ
  total_exchanges : ℕ
  false_positives : ℕ
deriving DecidableEq, Repr

/-- `FixedHandsFreeSession._update_state` (app.py lines 840-860): sets the new
state, disables interruption detection when leaving `SPEAKING`, and sends a
`state_changed` event. -/
def update_state (sess : Session) (new_state : ConversationState) :
    Session × List EventType :=
  let old := sess.state
  let vad' :=
    if new_state = ConversationState.speaking then sess.vad
    else if old = ConversationState.speaking then disable_interrupt_detection sess.vad
    else sess.vad
  ({ sess with state := new_state, vad := vad' }, [EventType.state_changed])

/-- `FixedHandsFreeSession._handle_interruption` (app.py lines 729-755): count
the interruption, disable the detector, go through `INTERRUPTED` to `LISTENING`,
and clear the echo suppression (`self.vad.echo_suppression_until = 0`).  The
playback-task cancellation has no session-state effect modelled here. -/
def handle_interruption (sess : Session) : Session × List EventType :=
  let sess1 := { sess with interruptions_count := sess.interruptions_count + 1 }
  let sess2 := { sess1 with vad := disable_interrupt_detection sess1.vad }
  let p3 := update_state sess2 ConversationState.interrupted
  let p4 := update_state p3.1 ConversationState.listening
  let sess5 := { p4.1 with vad := { p4.1.vad with echo_suppression_until := 0 } }
  (sess5, p3.2 ++ [EventType.interrupted] ++ p4.2)

/-- `FixedHandsFreeSession._process_speech_segment` (app.py lines 493-507)
restricted to its synchronous session-state effects: move to `PROCESSING` and
disable interruption detection.  The spawned STT→LLM→TTS asyncio task is
modelled separately by `full_processing_pipeline`. -/
def process_speech_segment (sess : Session) : Session × List EventType :=
  let p1 := update_state sess ConversationState.processing
  ({ p1.1 with vad := disable_interrupt_detection p1.1.vad }, p1.2)

/-- `FixedHandsFreeSession._handle_vad_events` (app.py lines 441-491). -/
def handle_vad_events (sess : Session) (r : VADResult) : Session × List EventType :=
  -- speech start
  let p1 :=
    if r.speech_started = true ∧ sess.state = ConversationState.listening then
      let q := update_state sess ConversationState.speech_detected
      ({ q.1 with buffer := mark_speech_start q.1.buffer (r.speech_start_time.getD 0) },
        q.2 ++ [EventType.speech_detection])
    else (sess, ([] : List EventType))
  -- speech end
  let p2 :=
    if r.speech_ended = true ∧ p1.1.state = ConversationState.speech_detected then
      let se := [EventType.speech_detection]
      let q :=
        if r.should_process = some true then
          match extract_speech_segment p1.1.buffer r.timestamp with
          | Except.ok (some _) => process_speech_segment p1.1
          | Except.ok none => update_state p1.1 ConversationState.listening
          | Except.error _ => (p1.1, ([] : List EventType))
        else
          let fp := { p1.1 with false_positives := p1.1.false_positives + 1 }
          update_state fp ConversationState.listening
      ({ q.1 with buffer := clear_speech_markers q.1.buffer }, se ++ q.2)
    else (p1.1, ([] : List EventType))
  -- interruption
  let p3 :=
    if r.interrupt_detected = true ∧ p2.1.state = ConversationState.speaking then
      handle_interruption p2.1
    else (p2.1, ([] : List EventType))
  (p3.1, p1.2 ++ p2.2 ++ p3.2)

/-- `FixedHandsFreeSession.process_audio_chunk` (app.py lines 406-439).  `now`
models the `time.time()` read and `amp` the value of
`self._calculate_amplitude(audio_data)` (whose real-valued square root is
modelled separately by `calculate_amplitude`). -/
def process_audio_chunk (cfg : VADConfig) (sess : Session) (now amp : ℚ)
    (audio : List (Fin 256)) : Session × List EventType :=
  if sess.is_active = false then (sess, [])
  else
    let chunk : AudioChunk :=
      { data := audio, timestamp := now, amplitude := amp, chunk_id := 0,
        is_echo_suppressed := false }
    let buf := add_chunk sess.buffer chunk
    -- `add_chunk` mutates the chunk's id before the VAD sees it
    let chunk' := { chunk with chunk_id := sess.buffer.total_chunks }
    let pr := process_chunk cfg sess.vad chunk' sess.state
    let sess1 := { sess with buffer := buf, vad := pr.1 }
    let p2 := handle_vad_events sess1 pr.2
    let statusEvs : List EventType :=
      if chunk'.chunk_id % 20 = 0 then [EventType.audio_status] else []
    (p2.1, p2.2 ++ statusEvs)

/-- `FixedHandsFreeSession.pause_session` (app.py lines 757-762). -/
def pause_session (sess : Session) : Session × List EventType :=
  let sess1 := { sess with is_active := false, vad := disable_interrupt_detection sess.vad }
  let p := update_state sess1 ConversationState.paused
  (p.1, p.2 ++ [EventType.session_paused])

/-- `FixedHandsFreeSession.resume_session` (app.py lines 764-768). -/
def resume_session (sess : Session) : Session × List EventType :=
  let sess1 := { sess with is_active := true }
  let p := update_state sess1 ConversationState.listening
  (p.1, p.2 ++ [EventType.session_resumed])

/-- Outcome of awaiting one external pipeline stage: a value, an exception, or
an `asyncio.CancelledError`. -/
inductive StageOutcome (α : Type) where
  | ok (value : α)
  | raises
  | cancelled
deriving DecidableEq, Repr

/-- `FixedHandsFreeSession._full_processing_pipeline` (app.py lines 509-554),
with the three awaited stages given by their outcomes.  The `tts` outcome is
that of awaiting `_run_tts_and_play`'s executor call and streaming, which run
after that helper has already moved the session to `SPEAKING`, enabled
interruption detection, and armed echo suppression; an `ok` audio result is
streamed (empty audio skips streaming), then detection is disabled.  The
`except` clauses of the pipeline return the session to `LISTENING`, emitting an
`error` event for an exception but not for a cancellation. -/
def full_processing_pipeline (cfg : VADConfig) (sess : Session) (now : ℚ)
    (stt : StageOutcome String) (llm : StageOutcome String)
    (tts : StageOutcome (List (Fin 256))) : Session × List EventType :=
  let e0 := [EventType.processing_stage]
  match stt with
  | StageOutcome.cancelled =>
      let p := update_state sess ConversationState.listening
      (p.1, e0 ++ p.2)
  | StageOutcome.raises =>
      let p := update_state sess ConversationState.listening
      (p.1, e0 ++ [EventType.error] ++ p.2)
  | StageOutcome.ok transcript =>
      if transcript = "" ∨ transcript.trim.length < 2 then
        let p := update_state sess ConversationState.listening
        (p.1, e0 ++ p.2)
      else
        let e1 := [EventType.transcription, EventType.processing_stage]
        match llm with
        | StageOutcome.cancelled =>
            let p := update_state sess ConversationState.listening
            (p.1, e0 ++ e1 ++ p.2)
        | StageOutcome.raises =>
            let p := update_state sess ConversationState.listening
            (p.1, e0 ++ e1 ++ [EventType.error] ++ p.2)
        | StageOutcome.ok _response =>
            let e2 := [EventType.llm_response, EventType.processing_stage]
            -- _run_tts_and_play: SPEAKING, enable detection, arm echo suppression
            let pA := update_state sess ConversationState.speaking
            let sessB :=
              { pA.1 with vad := (set_echo_suppression
                  (enable_interrupt_detection pA.1.vad true now) now
                  cfg.echo_suppression_duration_ms) }
            match tts with
            | StageOutcome.cancelled =>
                let p := update_state sessB ConversationState.listening
                (p.1, e0 ++ e1 ++ e2 ++ pA.2 ++ p.2)
            | StageOutcome.raises =>
                let p := update_state sessB ConversationState.listening
                (p.1, e0 ++ e1 ++ e2 ++ pA.2 ++ [EventType.error] ++ p.2)
            | StageOutcome.ok audio_content =>
                let streamEvs : List EventType :=
                  if audio_content = [] then []
                  else [EventType.tts_start, EventType.tts_complete]
                let sessC := { sessB with vad := disable_interrupt_detection sessB.vad }
                let sessD := { sessC with total_exchanges := sessC.total_exchanges + 1 }
                let p := update_state sessD ConversationState.listening
                (p.1, e0 ++ e1 ++ e2 ++ pA.2 ++ streamEvs ++
                  [EventType.processing_complete] ++ p.2)

/-! ## Recomputed per-chunk quantities and projection lemmas -/

/-- The smoothed amplitude `process_chunk` computes for state `s` and chunk `c`. -/
def smoothOf (s : VADState) (c : AudioChunk) : ℚ :=
  (dequeAppend 5 s.amplitude_window c.amplitude).sum /
    ((dequeAppend 5 s.amplitude_window c.amplitude).length : ℚ)

/-- The adaptive threshold `process_chunk` computes for state `s` and chunk `c`. -/
def adaptOf (cfg : VADConfig) (s : VADState) (c : AudioChunk) : ℚ :=
  if 10 < (dequeAppend 50 s.long_term_noise c.amplitude).length then
    max cfg.vad_threshold
      (((((dequeAppend 50 s.long_term_noise c.amplitude).insertionSort (· ≤ ·)).take 20).sum
        / 20) * (5/2))
  else cfg.vad_threshold

/-- The effective (possibly echo-attenuated) amplitude of `process_chunk`. -/
def effOf (cfg : VADConfig) (s : VADState) (c : AudioChunk) : ℚ :=
  if decide (c.timestamp < s.echo_suppression_until) then
    smoothOf s c * cfg.echo_suppression_factor
  else smoothOf s c

theorem result_effective (cfg : VADConfig) (s : VADState) (c : AudioChunk)
    (st : ConversationState) :
    (process_chunk cfg s c st).2.effective_amplitude = effOf cfg s c := rfl

theorem result_smooth (cfg : VADConfig) (s : VADState) (c : AudioChunk)
    (st : ConversationState) :
    (process_chunk cfg s c st).2.smooth_amplitude = smoothOf s c := rfl

theorem result_adaptive (cfg : VADConfig) (s : VADState) (c : AudioChunk)
    (st : ConversationState) :
    (process_chunk cfg s c st).2.adaptive_threshold = adaptOf cfg s c := rfl

/-- The speech section of `process_chunk` is `speechStep` applied to the
effective amplitude's voice test. -/
theorem process_chunk_speech (cfg : VADConfig) (s : VADState) (c : AudioChunk)
    (st : ConversationState) :
    ((process_chunk cfg s c st).2.speech_started,
     (process_chunk cfg s c st).2.speech_start_time,
     (process_chunk cfg s c st).2.speech_ended,
     (process_chunk cfg s c st).2.speech_duration_ms,
     (process_chunk cfg s c st).2.should_process,
     (process_chunk cfg s c st).1.is_speech_active,
     (process_chunk cfg s c st).1.speech_start_time,
     (process_chunk cfg s c st).1.last_speech_time,
     (process_chunk cfg s c st).1.potential_speech_start) =
    (let sp := speechStep cfg (decide (effOf cfg s c > adaptOf cfg s c)) c.timestamp
        s.is_speech_active s.speech_start_time s.last_speech_time s.potential_speech_start
     (sp.speech_started, sp.speech_started_time, sp.speech_ended, sp.speech_duration_ms,
      sp.should_process, sp.is_speech_active, sp.speech_start_time, sp.last_speech_time,
      sp.potential_speech_start)) := rfl

/-- The interruption section of `process_chunk` is `interruptStep`. -/
theorem process_chunk_interrupt (cfg : VADConfig) (s : VADState) (c : AudioChunk)
    (st : ConversationState) :
    ((process_chunk cfg s c st).1.interrupt_candidate_start,
     (process_chunk cfg s c st).1.last_interrupt_time,
     (process_chunk cfg s c st).2.interrupt_detected) =
    interruptStep cfg st s.interrupt_detection_enabled s.speaking_start_time
      (effOf cfg s c) c.timestamp s.interrupt_candidate_start s.last_interrupt_time := rfl

theorem process_chunk_enabled (cfg : VADConfig) (s : VADState) (c : AudioChunk)
    (st : ConversationState) :
    (process_chunk cfg s c st).1.interrupt_detection_enabled =
      s.interrupt_detection_enabled := rfl

theorem process_chunk_speaking_start (cfg : VADConfig) (s : VADState) (c : AudioChunk)
    (st : ConversationState) :
    (process_chunk cfg s c st).1.speaking_start_time = s.speaking_start_time := rfl

theorem process_chunk_echo_until (cfg : VADConfig) (s : VADState) (c : AudioChunk)
    (st : ConversationState) :
    (process_chunk cfg s c st).1.echo_suppression_until = s.echo_suppression_until := rfl

/-! ## Case lemmas for the speech and interruption sections -/

theorem speechStep_ended_iff (cfg : VADConfig) (hv : Bool) (t : ℚ) (a : Bool)
    (sst lst pot : ℚ) :
    (speechStep cfg hv t a sst lst pot).speech_ended = true ↔
      hv = false ∧ a = true ∧ (t - lst) * 1000 ≥ cfg.vad_hang_time_ms := by
  unfold speechStep
  split_ifs <;> simp_all

theorem speechStep_ended_fields (cfg : VADConfig) (hv : Bool) (t : ℚ) (a : Bool)
    (sst lst pot : ℚ)
    (h : (speechStep cfg hv t a sst lst pot).speech_ended = true) :
    (speechStep cfg hv t a sst lst pot).speech_duration_ms = some ((lst - sst) * 1000) ∧
    (speechStep cfg hv t a sst lst pot).should_process =
      some (decide ((lst - sst) * 1000 ≥ HANDS_FREE_CONFIG.min_speech_duration_ms)) := by
  unfold speechStep at h ⊢
  split_ifs at h ⊢ <;> simp_all

theorem speechStep_started_iff (cfg : VADConfig) (hv : Bool) (t : ℚ) (a : Bool)
    (sst lst pot : ℚ) :
    (speechStep cfg hv t a sst lst pot).speech_started = true ↔
      hv = true ∧ a = false ∧ pot ≠ 0 ∧ (t - pot) * 1000 ≥ cfg.vad_attack_time_ms := by
  unfold speechStep
  split_ifs <;> simp_all

theorem speechStep_started_fields (cfg : VADConfig) (hv : Bool) (t : ℚ) (a : Bool)
    (sst lst pot : ℚ)
    (h : (speechStep cfg hv t a sst lst pot).speech_started = true) :
    (speechStep cfg hv t a sst lst pot).speech_started_time = some pot ∧
    (speechStep cfg hv t a sst lst pot).speech_start_time = pot ∧
    (speechStep cfg hv t a sst lst pot).is_speech_active = true := by
  unfold speechStep at h ⊢
  split_ifs at h ⊢ <;> simp_all

theorem speechStep_pot (cfg : VADConfig) (hv : Bool) (t : ℚ) (a : Bool)
    (sst lst pot : ℚ) :
    (speechStep cfg hv t a sst lst pot).potential_speech_start =
      if hv = true then (if a = false ∧ pot = 0 then t else pot) else 0 := by
  unfold speechStep
  split_ifs <;> simp_all

theorem speechStep_active (cfg : VADConfig) (hv : Bool) (t : ℚ) (a : Bool)
    (sst lst pot : ℚ) :
    (speechStep cfg hv t a sst lst pot).is_speech_active =
      if hv = true then
        (if a = false ∧ pot ≠ 0 ∧ (t - pot) * 1000 ≥ cfg.vad_attack_time_ms then true else a)
      else
        (if a = true ∧ (t - lst) * 1000 ≥ cfg.vad_hang_time_ms then false else a) := by
  unfold speechStep
  split_ifs <;> simp_all

theorem interruptStep_fired_iff (cfg : VADConfig) (st : ConversationState)
    (en : Bool) (spk eff t cand li : ℚ) :
    (interruptStep cfg st en spk eff t cand li).2.2 = true ↔
      st = ConversationState.speaking ∧ en = true ∧ eff > cfg.interrupt_threshold ∧
      ¬ ((t - li) * 1000 < cfg.interrupt_cooldown_ms) ∧
      ¬ ((t - spk) * 1000 < cfg.interrupt_min_speaking_time_ms) ∧
      cand ≠ 0 ∧ (t - cand) * 1000 ≥ cfg.interrupt_confirmation_ms := by
  unfold interruptStep
  split_ifs <;> simp_all <;> tauto

theorem interruptStep_cand_mem (cfg : VADConfig) (st : ConversationState)
    (en : Bool) (spk eff t cand li : ℚ) :
    (interruptStep cfg st en spk eff t cand li).1 = 0 ∨
    (interruptStep cfg st en spk eff t cand li).1 = cand ∨
    (interruptStep cfg st en spk eff t cand li).1 = t := by
  unfold interruptStep
  split_ifs <;> simp

theorem interruptStep_cand_ne (cfg : VADConfig) (st : ConversationState)
    (en : Bool) (spk eff t cand li : ℚ)
    (h : (interruptStep cfg st en spk eff t cand li).1 ≠ 0) :
    ((st = ConversationState.speaking ∧ en = true ∧ eff > cfg.interrupt_threshold) ∧
      ((interruptStep cfg st en spk eff t cand li).1 = cand ∧ cand ≠ 0 ∨
        cand = 0 ∧ (interruptStep cfg st en spk eff t cand li).1 = t)) ∨
    ((interruptStep cfg st en spk eff t cand li).1 = cand ∧ cand < 0) := by
  unfold interruptStep at h ⊢
  split_ifs at h ⊢ <;> simp_all <;>
    first
    | tauto
    | exact lt_of_le_of_ne (by assumption) (by assumption)
    | exact Or.inr (lt_of_le_of_ne (by assumption) (by assumption))

theorem interruptStep_lastInt (cfg : VADConfig) (st : ConversationState)
    (en : Bool) (spk eff t cand li : ℚ) :
    (interruptStep cfg st en spk eff t cand li).2.1 =
      if (interruptStep cfg st en spk eff t cand li).2.2 = true then t else li := by
  unfold interruptStep
  split_ifs <;> simp_all

/-- Silence (or a non-positive candidate state) resets the interruption
candidate: when the outer gate fails the candidate is cleared (and a cleared
candidate stays cleared). -/
theorem interruptStep_reset (cfg : VADConfig) (st : ConversationState)
    (en : Bool) (spk eff t cand li : ℚ)
    (hout : ¬ (st = ConversationState.speaking ∧ en = true ∧ eff > cfg.interrupt_threshold))
    (hnn : 0 ≤ cand) :
    (interruptStep cfg st en spk eff t cand li).1 = 0 := by
  unfold interruptStep
  split_ifs <;> simp_all <;> linarith

/-! ## Trace lemmas for the interruption detector -/

/-- Timestamp of the `n`-th chunk of a trace. -/
def tsAt (tr : ℕ → AudioChunk × ConversationState) (n : ℕ) : ℚ := ((tr n).1).timestamp

/-- Session state passed with the `n`-th chunk of a trace. -/
def csAt (tr : ℕ → AudioChunk × ConversationState) (n : ℕ) : ConversationState := (tr n).2

/-- Effective amplitude reported for the `n`-th chunk of a trace. -/
def effAt (cfg : VADConfig) (s₀ : VADState) (tr : ℕ → AudioChunk × ConversationState)
    (n : ℕ) : ℚ := (resultAt cfg s₀ tr n).effective_amplitude

/-- Adaptive threshold reported for the `n`-th chunk of a trace. -/
def adaptAt (cfg : VADConfig) (s₀ : VADState) (tr : ℕ → AudioChunk × ConversationState)
    (n : ℕ) : ℚ := (resultAt cfg s₀ tr n).adaptive_threshold

/-- Whether `interrupt_detected` is reported for the `n`-th chunk of a trace. -/
def firedAt (cfg : VADConfig) (s₀ : VADState) (tr : ℕ → AudioChunk × ConversationState)
    (n : ℕ) : Bool := (resultAt cfg s₀ tr n).interrupt_detected

theorem stateAt_succ (cfg : VADConfig) (s₀ : VADState)
    (tr : ℕ → AudioChunk × ConversationState) (n : ℕ) :
    stateAt cfg s₀ tr (n + 1) =
      (process_chunk cfg (stateAt cfg s₀ tr n) (tr n).1 (tr n).2).1 := rfl

theorem enabled_const (cfg : VADConfig) (s₀ : VADState)
    (tr : ℕ → AudioChunk × ConversationState) :
    ∀ n, (stateAt cfg s₀ tr n).interrupt_detection_enabled =
      s₀.interrupt_detection_enabled := by
  intro n
  induction n with
  | zero => rfl
  | succ n ih => rw [stateAt_succ, process_chunk_enabled]; exact ih

theorem speaking_start_const (cfg : VADConfig) (s₀ : VADState)
    (tr : ℕ → AudioChunk × ConversationState) :
    ∀ n, (stateAt cfg s₀ tr n).speaking_start_time = s₀.speaking_start_time := by
  intro n
  induction n with
  | zero => rfl
  | succ n ih => rw [stateAt_succ, process_chunk_speaking_start]; exact ih

theorem cand_succ (cfg : VADConfig) (s₀ : VADState)
    (tr : ℕ → AudioChunk × ConversationState) (n : ℕ) :
    (stateAt cfg s₀ tr (n + 1)).interrupt_candidate_start =
      (interruptStep cfg (csAt tr n)
        (stateAt cfg s₀ tr n).interrupt_detection_enabled
        (stateAt cfg s₀ tr n).speaking_start_time
        (effAt cfg s₀ tr n) (tsAt tr n)
        (stateAt cfg s₀ tr n).interrupt_candidate_start
        (stateAt cfg s₀ tr n).last_interrupt_time).1 := rfl

theorem lastInt_succ (cfg : VADConfig) (s₀ : VADState)
    (tr : ℕ → AudioChunk × ConversationState) (n : ℕ) :
    (stateAt cfg s₀ tr (n + 1)).last_interrupt_time =
      (interruptStep cfg (csAt tr n)
        (stateAt cfg s₀ tr n).interrupt_detection_enabled
        (stateAt cfg s₀ tr n).speaking_start_time
        (effAt cfg s₀ tr n) (tsAt tr n)
        (stateAt cfg s₀ tr n).interrupt_candidate_start
        (stateAt cfg s₀ tr n).last_interrupt_time).2.1 := rfl

theorem firedAt_eq (cfg : VADConfig) (s₀ : VADState)
    (tr : ℕ → AudioChunk × ConversationState) (n : ℕ) :
    firedAt cfg s₀ tr n =
      (interruptStep cfg (csAt tr n)
        (stateAt cfg s₀ tr n).interrupt_detection_enabled
        (stateAt cfg s₀ tr n).speaking_start_time
        (effAt cfg s₀ tr n) (tsAt tr n)
        (stateAt cfg s₀ tr n).interrupt_candidate_start
        (stateAt cfg s₀ tr n).last_interrupt_time).2.2 := rfl

theorem cand_nonneg (cfg : VADConfig) (s₀ : VADState)
    (tr : ℕ → AudioChunk × ConversationState)
    (h0 : s₀.interrupt_candidate_start = 0) (hpos : ∀ n, 0 < tsAt tr n) :
    ∀ n, 0 ≤ (stateAt cfg s₀ tr n).interrupt_candidate_start := by
  intro n
  induction n with
  | zero => exact le_of_eq h0.symm
  | succ n ih =>
    rw [cand_succ]
    rcases interruptStep_cand_mem cfg (csAt tr n)
        (stateAt cfg s₀ tr n).interrupt_detection_enabled
        (stateAt cfg s₀ tr n).speaking_start_time
        (effAt cfg s₀ tr n) (tsAt tr n)
        (stateAt cfg s₀ tr n).interrupt_candidate_start
        (stateAt cfg s₀ tr n).last_interrupt_time with h | h | h <;> rw [h]
    · exact ih
    · exact (hpos n).le

/-- While an interruption candidate is recorded, every chunk since the chunk
that opened it was processed in `SPEAKING` with detection enabled and effective
amplitude above the interrupt threshold. -/
theorem cand_evidence (cfg : VADConfig) (s₀ : VADState)
    (tr : ℕ → AudioChunk × ConversationState)
    (h0 : s₀.interrupt_candidate_start = 0) (hpos : ∀ n, 0 < tsAt tr n) :
    ∀ n, (stateAt cfg s₀ tr n).interrupt_candidate_start ≠ 0 →
      ∃ j, j < n ∧ tsAt tr j = (stateAt cfg s₀ tr n).interrupt_candidate_start ∧
        ∀ k, j ≤ k → k < n → csAt tr k = ConversationState.speaking ∧
          (stateAt cfg s₀ tr k).interrupt_detection_enabled = true ∧
          effAt cfg s₀ tr k > cfg.interrupt_threshold := by
  intro n
  induction n with
  | zero => intro h; exact absurd h0 h
  | succ n ih =>
    intro h
    rw [cand_succ] at h
    rcases interruptStep_cand_ne cfg (csAt tr n)
        (stateAt cfg s₀ tr n).interrupt_detection_enabled
        (stateAt cfg s₀ tr n).speaking_start_time
        (effAt cfg s₀ tr n) (tsAt tr n)
        (stateAt cfg s₀ tr n).interrupt_candidate_start
        (stateAt cfg s₀ tr n).last_interrupt_time h with
      ⟨houter, hcase⟩ | ⟨_, hneg⟩
    · rcases hcase with ⟨heq, hne⟩ | ⟨hc0, heq⟩
      · obtain ⟨j, hj, hts, hall⟩ := ih hne
        refine ⟨j, Nat.lt_succ_of_lt hj, ?_, ?_⟩
        · rw [cand_succ, heq]; exact hts
        · intro k hk1 hk2
          rcases Nat.lt_succ_iff_lt_or_eq.mp hk2 with hk | hk
          · exact hall k hk1 hk
          · subst hk; exact ⟨houter.1, houter.2.1, houter.2.2⟩
      · refine ⟨n, Nat.lt_succ_self n, ?_, ?_⟩
        · rw [cand_succ, heq]
        · intro k hk1 hk2
          have hkn : k = n := le_antisymm (Nat.lt_succ_iff.mp hk2) hk1
          subst hkn; exact ⟨houter.1, houter.2.1, houter.2.2⟩
    · exact absurd hneg (not_lt.mpr (cand_nonneg cfg s₀ tr h0 hpos n))

theorem tsAt_mono (tr : ℕ → AudioChunk × ConversationState)
    (hmono : ∀ n, tsAt tr n ≤ tsAt tr (n + 1)) :
    ∀ i j, i ≤ j → tsAt tr i ≤ tsAt tr j := by
  intro i j hij
  induction hij with
  | refl => exact le_refl _
  | step _ ih => exact le_trans ih (hmono _)

/-- The recorded `last_interrupt_time` is at least the timestamp of every
earlier fired interruption. -/
theorem lastInt_ge_fire (cfg : VADConfig) (s₀ : VADState)
    (tr : ℕ → AudioChunk × ConversationState)
    (hmono : ∀ n, tsAt tr n ≤ tsAt tr (n + 1)) :
    ∀ i n, i < n → firedAt cfg s₀ tr i = true →
      tsAt tr i ≤ (stateAt cfg s₀ tr n).last_interrupt_time := by
  intro i n
  induction n with
  | zero => intro h; exact absurd h (Nat.not_lt_zero i)
  | succ n ih =>
    intro hin hf
    rw [lastInt_succ, interruptStep_lastInt, ← firedAt_eq]
    rcases Nat.lt_succ_iff_lt_or_eq.mp hin with h | h
    · split_ifs with hfn
      · exact tsAt_mono tr hmono i n h.le
      · exact ih h hf
    · subst h; rw [if_pos hf]

/-! ## Claim C1 -/

/-- **C1.** Along any trace of `process_chunk` calls (timestamps positive and
nondecreasing, candidate initially clear), a result carries `interrupt_detected`
only when: the session state passed in is `SPEAKING`; interruption detection is
enabled (a constant of the trace, so nothing fires while disabled); at least
`interrupt_min_speaking_time_ms` have elapsed since `speaking_start_time`; at
least `interrupt_cooldown_ms` have elapsed since `last_interrupt_time`; and the
effective amplitude has stayed above `interrupt_threshold` at every chunk of a
run of length at least `interrupt_confirmation_ms` (any chunk at or below the
threshold clears the candidate timer).  Consequently two fired interruptions are
at least `interrupt_cooldown_ms` apart. -/
theorem interrupt_detected_gates
    (cfg : VADConfig) (s₀ : VADState) (tr : ℕ → AudioChunk × ConversationState)
    (h0 : s₀.interrupt_candidate_start = 0)
    (hpos : ∀ n, 0 < tsAt tr n)
    (hmono : ∀ n, tsAt tr n ≤ tsAt tr (n + 1))
    (i : ℕ) (hf : firedAt cfg s₀ tr i = true) :
    csAt tr i = ConversationState.speaking ∧
    (stateAt cfg s₀ tr i).interrupt_detection_enabled = true ∧
    s₀.interrupt_detection_enabled = true ∧
    (tsAt tr i - s₀.speaking_start_time) * 1000 ≥ cfg.interrupt_min_speaking_time_ms ∧
    (tsAt tr i - (stateAt cfg s₀ tr i).last_interrupt_time) * 1000 ≥
      cfg.interrupt_cooldown_ms ∧
    (∃ j, j < i ∧ (tsAt tr i - tsAt tr j) * 1000 ≥ cfg.interrupt_confirmation_ms ∧
      ∀ k, j ≤ k → k ≤ i → csAt tr k = ConversationState.speaking ∧
        effAt cfg s₀ tr k > cfg.interrupt_threshold) ∧
    (∀ n, ¬ (effAt cfg s₀ tr n > cfg.interrupt_threshold) →
      (stateAt cfg s₀ tr (n + 1)).interrupt_candidate_start = 0) ∧
    (∀ j, j < i → firedAt cfg s₀ tr j = true →
      (tsAt tr i - tsAt tr j) * 1000 ≥ cfg.interrupt_cooldown_ms) := by
  rw [firedAt_eq, interruptStep_fired_iff] at hf
  obtain ⟨hst, hen, heff, hcool, hmin, hcand, hconf⟩ := hf
  have hen0 : s₀.interrupt_detection_enabled = true :=
    (enabled_const cfg s₀ tr i) ▸ hen
  have hspk : (stateAt cfg s₀ tr i).speaking_start_time = s₀.speaking_start_time :=
    speaking_start_const cfg s₀ tr i
  refine ⟨hst, hen, hen0, ?_, not_lt.mp hcool, ?_, ?_, ?_⟩
  · rw [← hspk]; exact not_lt.mp hmin
  · obtain ⟨j, hj, hts, hall⟩ := cand_evidence cfg s₀ tr h0 hpos i hcand
    refine ⟨j, hj, ?_, ?_⟩
    · rw [hts]; exact hconf
    · intro k hk1 hk2
      rcases lt_or_eq_of_le hk2 with h | h
      · obtain ⟨ha, _, hb⟩ := hall k hk1 h
        exact ⟨ha, hb⟩
      · subst h; exact ⟨hst, heff⟩
  · intro n hn
    rw [cand_succ]
    exact interruptStep_reset _ _ _ _ _ _ _ _ (fun hc => hn hc.2.2)
      (cand_nonneg cfg s₀ tr h0 hpos n)
  · intro j hj hfj
    have h1 : tsAt tr j ≤ (stateAt cfg s₀ tr i).last_interrupt_time :=
      lastInt_ge_fire cfg s₀ tr hmono j i hj hfj
    have h2 := not_lt.mp hcool
    linarith

/-- Initial VAD state of the concrete interrupt-firing trace: detection enabled
with `speaking_start_time = 0`, everything else as `__init__` leaves it. -/
def wVad : VADState :=
  { VADState.initial with interrupt_detection_enabled := true }

/-- Concrete trace: loud chunks (amplitude 1) one second apart while the session
is `SPEAKING`. -/
def wTr : ℕ → AudioChunk × ConversationState := fun n =>
  ({ data := [], timestamp := (n : ℚ) + 1, amplitude := 1, chunk_id := 0,
     is_echo_suppressed := false }, ConversationState.speaking)

theorem interrupt_detected_gates_witness :
    csAt wTr 1 = ConversationState.speaking ∧
    (stateAt HANDS_FREE_CONFIG wVad wTr 1).interrupt_detection_enabled = true ∧
    wVad.interrupt_detection_enabled = true ∧
    (tsAt wTr 1 - wVad.speaking_start_time) * 1000 ≥
      HANDS_FREE_CONFIG.interrupt_min_speaking_time_ms ∧
    (tsAt wTr 1 - (stateAt HANDS_FREE_CONFIG wVad wTr 1).last_interrupt_time) * 1000 ≥
      HANDS_FREE_CONFIG.interrupt_cooldown_ms ∧
    (∃ j, j < 1 ∧ (tsAt wTr 1 - tsAt wTr j) * 1000 ≥
        HANDS_FREE_CONFIG.interrupt_confirmation_ms ∧
      ∀ k, j ≤ k → k ≤ 1 → csAt wTr k = ConversationState.speaking ∧
        effAt HANDS_FREE_CONFIG wVad wTr k > HANDS_FREE_CONFIG.interrupt_threshold) ∧
    (∀ n, ¬ (effAt HANDS_FREE_CONFIG wVad wTr n > HANDS_FREE_CONFIG.interrupt_threshold) →
      (stateAt HANDS_FREE_CONFIG wVad wTr (n + 1)).interrupt_candidate_start = 0) ∧
    (∀ j, j < 1 → firedAt HANDS_FREE_CONFIG wVad wTr j = true →
      (tsAt wTr 1 - tsAt wTr j) * 1000 ≥ HANDS_FREE_CONFIG.interrupt_cooldown_ms) :=
  interrupt_detected_gates HANDS_FREE_CONFIG wVad wTr rfl
    (fun n => by simp only [tsAt, wTr]; positivity)
    (fun n => by simp only [tsAt, wTr]; push_cast; linarith)
    1
    (by norm_num [firedAt, resultAt, stateAt, process_chunk, speechStep, interruptStep,
      dequeAppend, HANDS_FREE_CONFIG, wVad, wTr, VADState.initial, List.insertionSort,
      List.orderedInsert])

/-! ## Trace lemmas for speech-start detection -/

theorem pot_succ (cfg : VADConfig) (s₀ : VADState)
    (tr : ℕ → AudioChunk × ConversationState) (n : ℕ) :
    (stateAt cfg s₀ tr (n + 1)).potential_speech_start =
      (speechStep cfg (decide (effAt cfg s₀ tr n > adaptAt cfg s₀ tr n)) (tsAt tr n)
        (stateAt cfg s₀ tr n).is_speech_active
        (stateAt cfg s₀ tr n).speech_start_time
        (stateAt cfg s₀ tr n).last_speech_time
        (stateAt cfg s₀ tr n).potential_speech_start).potential_speech_start := rfl

theorem act_succ (cfg : VADConfig) (s₀ : VADState)
    (tr : ℕ → AudioChunk × ConversationState) (n : ℕ) :
    (stateAt cfg s₀ tr (n + 1)).is_speech_active =
      (speechStep cfg (decide (effAt cfg s₀ tr n > adaptAt cfg s₀ tr n)) (tsAt tr n)
        (stateAt cfg s₀ tr n).is_speech_active
        (stateAt cfg s₀ tr n).speech_start_time
        (stateAt cfg s₀ tr n).last_speech_time
        (stateAt cfg s₀ tr n).potential_speech_start).is_speech_active := rfl

theorem sst_succ (cfg : VADConfig) (s₀ : VADState)
    (tr : ℕ → AudioChunk × ConversationState) (n : ℕ) :
    (stateAt cfg s₀ tr (n + 1)).speech_start_time =
      (speechStep cfg (decide (effAt cfg s₀ tr n > adaptAt cfg s₀ tr n)) (tsAt tr n)
        (stateAt cfg s₀ tr n).is_speech_active
        (stateAt cfg s₀ tr n).speech_start_time
        (stateAt cfg s₀ tr n).last_speech_time
        (stateAt cfg s₀ tr n).potential_speech_start).speech_start_time := rfl

theorem started_eq (cfg : VADConfig) (s₀ : VADState)
    (tr : ℕ → AudioChunk × ConversationState) (n : ℕ) :
    (resultAt cfg s₀ tr n).speech_started =
      (speechStep cfg (decide (effAt cfg s₀ tr n > adaptAt cfg s₀ tr n)) (tsAt tr n)
        (stateAt cfg s₀ tr n).is_speech_active
        (stateAt cfg s₀ tr n).speech_start_time
        (stateAt cfg s₀ tr n).last_speech_time
        (stateAt cfg s₀ tr n).potential_speech_start).speech_started := rfl

theorem started_time_eq (cfg : VADConfig) (s₀ : VADState)
    (tr : ℕ → AudioChunk × ConversationState) (n : ℕ) :
    (resultAt cfg s₀ tr n).speech_start_time =
      (speechStep cfg (decide (effAt cfg s₀ tr n > adaptAt cfg s₀ tr n)) (tsAt tr n)
        (stateAt cfg s₀ tr n).is_speech_active
        (stateAt cfg s₀ tr n).speech_start_time
        (stateAt cfg s₀ tr n).last_speech_time
        (stateAt cfg s₀ tr n).potential_speech_start).speech_started_time := rfl

/-- While a potential speech start is recorded, it is the timestamp of an
earlier chunk at which the potential start was clear and speech inactive, and
every chunk since has been above the adaptive threshold. -/
theorem pot_evidence (cfg : VADConfig) (s₀ : VADState)
    (tr : ℕ → AudioChunk × ConversationState)
    (h0 : s₀.potential_speech_start = 0) (hpos : ∀ n, 0 < tsAt tr n) :
    ∀ n, (stateAt cfg s₀ tr n).potential_speech_start ≠ 0 →
      ∃ j, j < n ∧ tsAt tr j = (stateAt cfg s₀ tr n).potential_speech_start ∧
        (stateAt cfg s₀ tr j).potential_speech_start = 0 ∧
        (stateAt cfg s₀ tr j).is_speech_active = false ∧
        ∀ k, j ≤ k → k < n → effAt cfg s₀ tr k > adaptAt cfg s₀ tr k := by
  intro n
  induction n with
  | zero => intro h; exact absurd h0 h
  | succ n ih =>
    intro h
    by_cases hv : effAt cfg s₀ tr n > adaptAt cfg s₀ tr n
    · have hps : (stateAt cfg s₀ tr (n + 1)).potential_speech_start =
          if (stateAt cfg s₀ tr n).is_speech_active = false ∧
              (stateAt cfg s₀ tr n).potential_speech_start = 0 then tsAt tr n
          else (stateAt cfg s₀ tr n).potential_speech_start := by
        rw [pot_succ, speechStep_pot]; simp [hv]
      by_cases hcond : (stateAt cfg s₀ tr n).is_speech_active = false ∧
          (stateAt cfg s₀ tr n).potential_speech_start = 0
      · refine ⟨n, Nat.lt_succ_self n, ?_, hcond.2, hcond.1, ?_⟩
        · rw [hps, if_pos hcond]
        · intro k hk1 hk2
          have hkn : k = n := le_antisymm (Nat.lt_succ_iff.mp hk2) hk1
          subst hkn; exact hv
      · have hkeep : (stateAt cfg s₀ tr (n + 1)).potential_speech_start =
            (stateAt cfg s₀ tr n).potential_speech_start := by
          rw [hps, if_neg hcond]
        rw [hkeep] at h
        obtain ⟨j, hj, hts, hz, ha, hall⟩ := ih h
        refine ⟨j, Nat.lt_succ_of_lt hj, by rw [hkeep]; exact hts, hz, ha, ?_⟩
        intro k hk1 hk2
        rcases Nat.lt_succ_iff_lt_or_eq.mp hk2 with hk | hk
        · exact hall k hk1 hk
        · subst hk; exact hv
    · have : (stateAt cfg s₀ tr (n + 1)).potential_speech_start = 0 := by
        rw [pot_succ, speechStep_pot]; simp [hv]
      exact absurd this h

/-- If right after chunk `m` the potential start is clear and speech inactive,
chunk `m` was not above the adaptive threshold: a recorded potential start can
only point at the first above-threshold chunk of its run. -/
theorem pot_fresh_prev (cfg : VADConfig) (s₀ : VADState)
    (tr : ℕ → AudioChunk × ConversationState)
    (hpos : ∀ n, 0 < tsAt tr n) (m : ℕ)
    (hz : (stateAt cfg s₀ tr (m + 1)).potential_speech_start = 0)
    (ha : (stateAt cfg s₀ tr (m + 1)).is_speech_active = false) :
    ¬ (effAt cfg s₀ tr m > adaptAt cfg s₀ tr m) := by
  intro hv
  have hps : (stateAt cfg s₀ tr (m + 1)).potential_speech_start =
      if (stateAt cfg s₀ tr m).is_speech_active = false ∧
          (stateAt cfg s₀ tr m).potential_speech_start = 0 then tsAt tr m
      else (stateAt cfg s₀ tr m).potential_speech_start := by
    rw [pot_succ, speechStep_pot]; simp [hv]
  by_cases hcond : (stateAt cfg s₀ tr m).is_speech_active = false ∧
      (stateAt cfg s₀ tr m).potential_speech_start = 0
  · rw [hps, if_pos hcond] at hz
    exact absurd hz.symm (ne_of_lt (hpos m))
  · rw [hps, if_neg hcond] at hz
    have hact : (stateAt cfg s₀ tr m).is_speech_active = true := by
      rcases not_and_or.mp hcond with h | h
      · simpa using h
      · exact absurd hz h
    have hat : (stateAt cfg s₀ tr (m + 1)).is_speech_active = true := by
      rw [act_succ, speechStep_active]
      simp [hv, hact]
    rw [hat] at ha
    simp at ha

/-! ## Claim C2 -/

/-- **C2.** Along any trace of `process_chunk` calls (positive timestamps,
potential start initially clear), `speech_started` is reported only while
speech was inactive, only after the effective amplitude exceeded the adaptive
threshold at every chunk of a run spanning at least `vad_attack_time_ms`, and
the reported `speech_start_time` is the recorded `potential_speech_start` =
the timestamp of the first above-threshold chunk of that run (the previous
chunk, if any, was not above threshold); moreover any single chunk at or below
the adaptive threshold clears `potential_speech_start` to zero. -/
theorem speech_started_gates
    (cfg : VADConfig) (s₀ : VADState) (tr : ℕ → AudioChunk × ConversationState)
    (h0 : s₀.potential_speech_start = 0)
    (hpos : ∀ n, 0 < tsAt tr n)
    (i : ℕ) (hs : (resultAt cfg s₀ tr i).speech_started = true) :
    (stateAt cfg s₀ tr i).is_speech_active = false ∧
    (tsAt tr i - (stateAt cfg s₀ tr i).potential_speech_start) * 1000 ≥
      cfg.vad_attack_time_ms ∧
    (resultAt cfg s₀ tr i).speech_start_time =
      some ((stateAt cfg s₀ tr i).potential_speech_start) ∧
    (stateAt cfg s₀ tr (i + 1)).speech_start_time =
      (stateAt cfg s₀ tr i).potential_speech_start ∧
    (∃ j, j < i ∧ tsAt tr j = (stateAt cfg s₀ tr i).potential_speech_start ∧
      (∀ k, j ≤ k → k ≤ i → effAt cfg s₀ tr k > adaptAt cfg s₀ tr k) ∧
      (j = 0 ∨ ¬ (effAt cfg s₀ tr (j - 1) > adaptAt cfg s₀ tr (j - 1)))) ∧
    (∀ n, ¬ (effAt cfg s₀ tr n > adaptAt cfg s₀ tr n) →
      (stateAt cfg s₀ tr (n + 1)).potential_speech_start = 0) := by
  rw [started_eq, speechStep_started_iff] at hs
  obtain ⟨hvd, hact, hpne, hconf⟩ := hs
  have hv : effAt cfg s₀ tr i > adaptAt cfg s₀ tr i := of_decide_eq_true hvd
  have hfields := speechStep_started_fields cfg
      (decide (effAt cfg s₀ tr i > adaptAt cfg s₀ tr i)) (tsAt tr i)
      (stateAt cfg s₀ tr i).is_speech_active
      (stateAt cfg s₀ tr i).speech_start_time
      (stateAt cfg s₀ tr i).last_speech_time
      (stateAt cfg s₀ tr i).potential_speech_start
      (by rw [speechStep_started_iff]; exact ⟨hvd, hact, hpne, hconf⟩)
  refine ⟨hact, hconf, ?_, ?_, ?_, ?_⟩
  · rw [started_time_eq]; exact hfields.1
  · rw [sst_succ]; exact hfields.2.1
  · obtain ⟨j, hj, hts, hz, hia, hall⟩ := pot_evidence cfg s₀ tr h0 hpos i hpne
    refine ⟨j, hj, hts, ?_, ?_⟩
    · intro k hk1 hk2
      rcases lt_or_eq_of_le hk2 with h | h
      · exact hall k hk1 h
      · subst h; exact hv
    · rcases Nat.eq_zero_or_pos j with h | h
      · exact Or.inl h
      · right
        obtain ⟨m, hm⟩ := Nat.exists_eq_add_of_lt h
        have hjm : j = m + 1 := by omega
        subst hjm
        simpa using pot_fresh_prev cfg s₀ tr hpos m hz hia
  · intro n hn
    rw [pot_succ, speechStep_pot]
    simp [hn]

/-- Concrete trace for the speech-start witness: loud chunks one second apart
while the session is `LISTENING`, starting from the freshly constructed VAD. -/
def wTr2 : ℕ → AudioChunk × ConversationState := fun n =>
  ({ data := [], timestamp := (n : ℚ) + 1, amplitude := 1, chunk_id := 0,
     is_echo_suppressed := false }, ConversationState.listening)

theorem speech_started_gates_witness :
    (stateAt HANDS_FREE_CONFIG VADState.initial wTr2 1).is_speech_active = false ∧
    (tsAt wTr2 1 -
      (stateAt HANDS_FREE_CONFIG VADState.initial wTr2 1).potential_speech_start) * 1000 ≥
      HANDS_FREE_CONFIG.vad_attack_time_ms ∧
    (resultAt HANDS_FREE_CONFIG VADState.initial wTr2 1).speech_start_time =
      some ((stateAt HANDS_FREE_CONFIG VADState.initial wTr2 1).potential_speech_start) ∧
    (stateAt HANDS_FREE_CONFIG VADState.initial wTr2 2).speech_start_time =
      (stateAt HANDS_FREE_CONFIG VADState.initial wTr2 1).potential_speech_start ∧
    (∃ j, j < 1 ∧ tsAt wTr2 j =
        (stateAt HANDS_FREE_CONFIG VADState.initial wTr2 1).potential_speech_start ∧
      (∀ k, j ≤ k → k ≤ 1 → effAt HANDS_FREE_CONFIG VADState.initial wTr2 k >
        adaptAt HANDS_FREE_CONFIG VADState.initial wTr2 k) ∧
      (j = 0 ∨ ¬ (effAt HANDS_FREE_CONFIG VADState.initial wTr2 (j - 1) >
        adaptAt HANDS_FREE_CONFIG VADState.initial wTr2 (j - 1)))) ∧
    (∀ n, ¬ (effAt HANDS_FREE_CONFIG VADState.initial wTr2 n >
        adaptAt HANDS_FREE_CONFIG VADState.initial wTr2 n) →
      (stateAt HANDS_FREE_CONFIG VADState.initial wTr2 (n + 1)).potential_speech_start = 0) :=
  speech_started_gates HANDS_FREE_CONFIG VADState.initial wTr2 rfl
    (fun n => by simp only [tsAt, wTr2]; positivity)
    1
    (by norm_num [resultAt, stateAt, process_chunk, speechStep, dequeAppend,
      HANDS_FREE_CONFIG, wTr2, VADState.initial, List.insertionSort, List.orderedInsert])

/-! ## Claim C3 -/

/-- **C3.** For every chunk, `speech_ended` is reported exactly when speech was
active, the effective amplitude is at or below the adaptive threshold, and the
silence since `last_speech_time` spans at least `vad_hang_time_ms`; the reported
`speech_duration_ms` is `(last_speech_time - speech_start_time) * 1000`, and
`should_process` is `True` exactly when that duration is at least
`min_speech_duration_ms` (the boundary is inclusive). -/
theorem speech_ended_spec (cfg : VADConfig) (s : VADState) (c : AudioChunk)
    (st : ConversationState) :
    ((process_chunk cfg s c st).2.speech_ended = true ↔
      s.is_speech_active = true ∧
      (process_chunk cfg s c st).2.effective_amplitude ≤
        (process_chunk cfg s c st).2.adaptive_threshold ∧
      (c.timestamp - s.last_speech_time) * 1000 ≥ cfg.vad_hang_time_ms) ∧
    ((process_chunk cfg s c st).2.speech_ended = true →
      (process_chunk cfg s c st).2.speech_duration_ms =
        some ((s.last_speech_time - s.speech_start_time) * 1000) ∧
      ((process_chunk cfg s c st).2.should_process = some true ↔
        (s.last_speech_time - s.speech_start_time) * 1000 ≥
          HANDS_FREE_CONFIG.min_speech_duration_ms)) := by
  have he : (process_chunk cfg s c st).2.speech_ended =
      (speechStep cfg (decide (effOf cfg s c > adaptOf cfg s c)) c.timestamp
        s.is_speech_active s.speech_start_time s.last_speech_time
        s.potential_speech_start).speech_ended := rfl
  have hd : (process_chunk cfg s c st).2.speech_duration_ms =
      (speechStep cfg (decide (effOf cfg s c > adaptOf cfg s c)) c.timestamp
        s.is_speech_active s.speech_start_time s.last_speech_time
        s.potential_speech_start).speech_duration_ms := rfl
  have hp : (process_chunk cfg s c st).2.should_process =
      (speechStep cfg (decide (effOf cfg s c > adaptOf cfg s c)) c.timestamp
        s.is_speech_active s.speech_start_time s.last_speech_time
        s.potential_speech_start).should_process := rfl
  constructor
  · rw [he, speechStep_ended_iff, result_effective, result_adaptive]
    simp only [decide_eq_false_iff_not, not_lt]
    tauto
  · intro h
    rw [he] at h
    have hf := speechStep_ended_fields cfg
        (decide (effOf cfg s c > adaptOf cfg s c)) c.timestamp
        s.is_speech_active s.speech_start_time s.last_speech_time
        s.potential_speech_start h
    rw [hd, hp]
    refine ⟨hf.1, ?_⟩
    rw [hf.2]
    simp

/-- VAD state for the speech-end witness: speech active that began at second 1
and was last heard at second 2. -/
def sC3 : VADState :=
  { VADState.initial with
    is_speech_active := true
    speech_start_time := 1
    last_speech_time := 2 }

/-- Chunk for the speech-end witness: silence at second 3. -/
def cC3 : AudioChunk :=
  { data := [], timestamp := 3, amplitude := 0, chunk_id := 0,
    is_echo_suppressed := false }

theorem speech_ended_spec_witness :
    (process_chunk HANDS_FREE_CONFIG sC3 cC3 ConversationState.speech_detected).2.speech_duration_ms =
      some ((sC3.last_speech_time - sC3.speech_start_time) * 1000) ∧
    ((process_chunk HANDS_FREE_CONFIG sC3 cC3 ConversationState.speech_detected).2.should_process =
        some true ↔
      (sC3.last_speech_time - sC3.speech_start_time) * 1000 ≥
        HANDS_FREE_CONFIG.min_speech_duration_ms) :=
  (speech_ended_spec HANDS_FREE_CONFIG sC3 cC3 ConversationState.speech_detected).2
    (by norm_num [process_chunk, speechStep, dequeAppend, HANDS_FREE_CONFIG, sC3, cC3,
      VADState.initial, List.insertionSort, List.orderedInsert])

/-! ## Claim C4 -/

/-- **C4 (amended).** The adaptive threshold computed by `process_chunk` is
never below `vad_threshold`; it equals `vad_threshold` while the noise window
(after the push) holds at most 10 samples, and once it holds more than 10 it is
`max(vad_threshold, noise_floor * 2.5)` where the noise floor is the sum of the
(at most) 20 smallest window values divided by the constant 20. -/
theorem adaptive_threshold_amended (cfg : VADConfig) (s : VADState) (c : AudioChunk)
    (st : ConversationState) :
    cfg.vad_threshold ≤ (process_chunk cfg s c st).2.adaptive_threshold ∧
    ((dequeAppend 50 s.long_term_noise c.amplitude).length ≤ 10 →
      (process_chunk cfg s c st).2.adaptive_threshold = cfg.vad_threshold) ∧
    (10 < (dequeAppend 50 s.long_term_noise c.amplitude).length →
      ∃ low rest : List ℚ,
        (dequeAppend 50 s.long_term_noise c.amplitude).Perm (low ++ rest) ∧
        low.length = min 20 (dequeAppend 50 s.long_term_noise c.amplitude).length ∧
        (∀ x ∈ low, ∀ y ∈ rest, x ≤ y) ∧
        (process_chunk cfg s c st).2.adaptive_threshold =
          max cfg.vad_threshold ((low.sum / 20) * (5/2))) := by
  rw [result_adaptive]
  by_cases h : 10 < (dequeAppend 50 s.long_term_noise c.amplitude).length
  · have hval : adaptOf cfg s c =
        max cfg.vad_threshold
          (((((dequeAppend 50 s.long_term_noise c.amplitude).insertionSort (· ≤ ·)).take 20).sum
            / 20) * (5/2)) := by
      rw [adaptOf, if_pos h]
    refine ⟨by rw [hval]; exact le_max_left _ _, fun hc => absurd h (by omega), fun _ => ?_⟩
    set l := (dequeAppend 50 s.long_term_noise c.amplitude).insertionSort (· ≤ ·) with hl
    refine ⟨l.take 20, l.drop 20, ?_, ?_, ?_, ?_⟩
    · rw [List.take_append_drop]
      exact (List.perm_insertionSort _ _).symm
    · rw [List.length_take, hl, List.length_insertionSort]
    · have hs : List.Sorted (· ≤ ·)
          ((dequeAppend 50 s.long_term_noise c.amplitude).insertionSort (· ≤ ·)) :=
        List.sorted_insertionSort _ _
      rw [← hl, ← List.take_append_drop 20 l] at hs
      exact (List.pairwise_append.mp hs).2.2
    · rw [hval]
  · have hval : adaptOf cfg s c = cfg.vad_threshold := by rw [adaptOf, if_neg h]
    exact ⟨le_of_eq hval.symm, fun _ => hval, fun hc => absurd hc h⟩

/-- State for the C4 counterexample: the noise window already holds 49 samples
of amplitude 0.1. -/
def sC4 : VADState :=
  { VADState.initial with long_term_noise := List.replicate 49 (1/10) }

/-- Chunk for the C4 counterexample: amplitude 0.1 at second 1. -/
def cC4 : AudioChunk :=
  { data := [], timestamp := 1, amplitude := 1/10, chunk_id := 0,
    is_echo_suppressed := false }

/-- **C4 (counterexample).** On a full 50-sample noise window of constant
amplitude 0.1 the code computes `max(0.015, 0.1 * 2.5) = 0.25`, while the claim
formula `max(base, mean(lowest 40%) * 3)` gives `0.3`: the claim's scaling
factor 3 (and its `≥ 10` window condition) does not match the code's 2.5 and
`> 10`. -/
theorem adaptive_threshold_counterexample :
    (process_chunk HANDS_FREE_CONFIG sC4 cC4 ConversationState.listening).2.adaptive_threshold
      = 1/4 ∧
    adaptiveThresholdClaim HANDS_FREE_CONFIG.vad_threshold
      (dequeAppend 50 sC4.long_term_noise cC4.amplitude) = 3/10 ∧
    ¬ ((process_chunk HANDS_FREE_CONFIG sC4 cC4 ConversationState.listening).2.adaptive_threshold
      = adaptiveThresholdClaim HANDS_FREE_CONFIG.vad_threshold
        (dequeAppend 50 sC4.long_term_noise cC4.amplitude)) := by
  refine ⟨?_, ?_, ?_⟩ <;>
    norm_num [result_adaptive, adaptOf, adaptiveThresholdClaim, dequeAppend, sC4, cC4,
      VADState.initial, HANDS_FREE_CONFIG, List.replicate, List.insertionSort,
      List.orderedInsert, max_def]

theorem adaptive_threshold_amended_witness :
    ∃ low rest : List ℚ,
      (dequeAppend 50 sC4.long_term_noise cC4.amplitude).Perm (low ++ rest) ∧
      low.length = min 20 (dequeAppend 50 sC4.long_term_noise cC4.amplitude).length ∧
      (∀ x ∈ low, ∀ y ∈ rest, x ≤ y) ∧
      (process_chunk HANDS_FREE_CONFIG sC4 cC4 ConversationState.listening).2.adaptive_threshold =
        max HANDS_FREE_CONFIG.vad_threshold ((low.sum / 20) * (5/2)) :=
  (adaptive_threshold_amended HANDS_FREE_CONFIG sC4 cC4 ConversationState.listening).2.2
    (by norm_num [dequeAppend, sC4, cC4, VADState.initial])

/-! ## Claim C5 -/

/-- **C5.** Echo suppression is a timed gain window: `set_echo_suppression(D)`
at time `now` sets `echo_suppression_until = now + D/1000`; a chunk strictly
before that instant has its smoothed amplitude multiplied by the echo factor
and is flagged `is_echo_suppressed`; a chunk at or after that instant is not
attenuated; and `_handle_interruption` clears `echo_suppression_until` to 0 and
leaves the session in `LISTENING`. -/
theorem echo_suppression_spec :
    (∀ (v : VADState) (now d : ℚ),
      (set_echo_suppression v now d).echo_suppression_until = now + d / 1000) ∧
    (∀ (cfg : VADConfig) (s : VADState) (c : AudioChunk) (st : ConversationState),
      c.timestamp < s.echo_suppression_until →
        (process_chunk cfg s c st).2.effective_amplitude =
          (process_chunk cfg s c st).2.smooth_amplitude * cfg.echo_suppression_factor ∧
        (process_chunk cfg s c st).2.is_echo_suppressed = true) ∧
    (∀ (cfg : VADConfig) (s : VADState) (c : AudioChunk) (st : ConversationState),
      s.echo_suppression_until ≤ c.timestamp →
        (process_chunk cfg s c st).2.effective_amplitude =
          (process_chunk cfg s c st).2.smooth_amplitude) ∧
    (∀ sess : Session,
      (handle_interruption sess).1.vad.echo_suppression_until = 0 ∧
      (handle_interruption sess).1.state = ConversationState.listening) := by
  refine ⟨fun v now d => rfl, ?_, ?_, fun sess => ⟨rfl, rfl⟩⟩
  · intro cfg s c st h
    constructor
    · rw [result_effective, result_smooth, effOf]
      simp [h]
    · have he : (process_chunk cfg s c st).2.is_echo_suppressed =
          (c.is_echo_suppressed || decide (c.timestamp < s.echo_suppression_until)) := rfl
      rw [he]
      simp [h]
  · intro cfg s c st h
    rw [result_effective, result_smooth, effOf]
    simp [not_lt.mpr h]

/-- VAD state for the echo-suppression witness: suppression armed until second
10. -/
def sC5 : VADState :=
  { VADState.initial with echo_suppression_until := 10 }

/-- Chunk for the echo-suppression witness: amplitude 1 at second 5, inside the
suppression window. -/
def cC5 : AudioChunk :=
  { data := [], timestamp := 5, amplitude := 1, chunk_id := 0,
    is_echo_suppressed := false }

theorem echo_suppression_spec_witness :
    ((process_chunk HANDS_FREE_CONFIG sC5 cC5 ConversationState.speaking).2.effective_amplitude =
      (process_chunk HANDS_FREE_CONFIG sC5 cC5 ConversationState.speaking).2.smooth_amplitude *
        HANDS_FREE_CONFIG.echo_suppression_factor ∧
    (process_chunk HANDS_FREE_CONFIG sC5 cC5 ConversationState.speaking).2.is_echo_suppressed =
      true) ∧
    (process_chunk HANDS_FREE_CONFIG sC5
      { cC5 with timestamp := 10 } ConversationState.speaking).2.effective_amplitude =
      (process_chunk HANDS_FREE_CONFIG sC5
        { cC5 with timestamp := 10 } ConversationState.speaking).2.smooth_amplitude :=
  ⟨echo_suppression_spec.2.1 HANDS_FREE_CONFIG sC5 cC5 ConversationState.speaking
      (by norm_num [sC5, cC5, VADState.initial]),
   echo_suppression_spec.2.2.1 HANDS_FREE_CONFIG sC5
      { cC5 with timestamp := 10 } ConversationState.speaking
      (by norm_num [sC5, cC5, VADState.initial])⟩

/-! ## Claim C8 -/

/-- **C8.** While the session is inactive (as `pause_session` leaves it), every
`process_audio_chunk` call is a strict no-op: the session (hence all VAD state,
both windows, the interruption state, and the session state) is returned
unchanged and no event is emitted, so no `speech_started`/`speech_ended`/
interruption event can fire during the pause; `pause_session` parks the session
in `PAUSED` with `is_active = False`, and `resume_session` moves it to
`LISTENING`. -/
theorem paused_chunk_noop :
    (∀ (cfg : VADConfig) (sess : Session) (now amp : ℚ) (audio : List (Fin 256)),
      sess.is_active = false →
        process_audio_chunk cfg sess now amp audio = (sess, [])) ∧
    (∀ sess : Session, (pause_session sess).1.is_active = false ∧
      (pause_session sess).1.state = ConversationState.paused) ∧
    (∀ sess : Session, (resume_session sess).1.is_active = true ∧
      (resume_session sess).1.state = ConversationState.listening) := by
  refine ⟨?_, fun sess => ⟨rfl, rfl⟩, fun sess => ⟨rfl, rfl⟩⟩
  intro cfg sess now amp audio h
  rw [process_audio_chunk, if_pos h]

/-- A paused session for the C8 witness. -/
def sessP : Session where
  state := ConversationState.paused
  vad := VADState.initial
  buffer := { max_size := 50, buffer := [], speech_start_index := none, total_chunks := 0 }
  is_active := false
  interruptions_count := 0
  total_exchanges := 0
  false_positives := 0

theorem paused_chunk_noop_witness :
    process_audio_chunk HANDS_FREE_CONFIG sessP 1 1 [] = (sessP, []) :=
  paused_chunk_noop.1 HANDS_FREE_CONFIG sessP 1 1 [] rfl

/-! ## Claim C9 -/

/-- **C9.** `mark_speech_start` records a start index only when some buffered
chunk's timestamp is within (strictly less than) 0.15 seconds of the given one;
with no qualifying chunk the buffer is unchanged (in particular an unset marker
stays unset), and any `extract_speech_segment` call with an unset marker
returns `None` (it does not raise), silently dropping the utterance. -/
theorem mark_speech_start_tolerance :
    (∀ (b : BufferState) (t : ℚ),
      (∀ ch ∈ b.buffer, ¬ (|ch.timestamp - t| < 15/100)) →
        mark_speech_start b t = b) ∧
    (∀ (b : BufferState) (e : ℚ), b.speech_start_index = none →
      extract_speech_segment b e = Except.ok none) := by
  constructor
  · intro b t h
    have hfind : b.buffer.findIdx? (fun c => decide (|c.timestamp - t| < 15/100)) = none := by
      rw [List.findIdx?_eq_none_iff]
      intro x hx
      simpa using h x hx
    rw [mark_speech_start, hfind]
  · intro b e h
    rw [extract_speech_segment, h]

/-- Buffer for the C9 witness: a single chunk at second 0, marker unset. -/
def bC9 : BufferState where
  max_size := 50
  buffer := [{ data := [], timestamp := 0, amplitude := 0, chunk_id := 0,
               is_echo_suppressed := false }]
  speech_start_index := none
  total_chunks := 1

theorem mark_speech_start_tolerance_witness :
    mark_speech_start bC9 1 = bC9 ∧ extract_speech_segment bC9 2 = Except.ok none :=
  ⟨mark_speech_start_tolerance.1 bC9 1
      (by intro ch hch; simp [bC9] at hch; subst hch; norm_num),
   mark_speech_start_tolerance.2 bC9 2 rfl⟩

/-! ## Claim C6 -/

/-- The session used as the starting point of pipeline runs in witnesses. -/
def sessW : Session where
  state := ConversationState.processing
  vad := VADState.initial
  buffer := { max_size := 50, buffer := [], speech_start_index := none, total_chunks := 0 }
  is_active := true
  interruptions_count := 0
  total_exchanges := 0
  false_positives := 0

/-- **C6.** Every terminal outcome of `_full_processing_pipeline` leaves the
session state at `LISTENING` (so never parked in `PROCESSING` or `SPEAKING`);
at most one `error` event is ever emitted, exactly one when the executed path
raised at some stage, and none on a cancellation or an empty/too-short
transcript. -/
theorem pipeline_terminal_listening (cfg : VADConfig) (sess : Session) (now : ℚ)
    (stt llm : StageOutcome String) (tts : StageOutcome (List (Fin 256))) :
    (full_processing_pipeline cfg sess now stt llm tts).1.state =
      ConversationState.listening ∧
    (full_processing_pipeline cfg sess now stt llm tts).2.count EventType.error ≤ 1 ∧
    (stt = StageOutcome.raises →
      (full_processing_pipeline cfg sess now stt llm tts).2.count EventType.error = 1) ∧
    (stt = StageOutcome.cancelled →
      (full_processing_pipeline cfg sess now stt llm tts).2.count EventType.error = 0) ∧
    (∀ t, stt = StageOutcome.ok t → (t = "" ∨ t.trim.length < 2) →
      (full_processing_pipeline cfg sess now stt llm tts).2.count EventType.error = 0) ∧
    (∀ t, stt = StageOutcome.ok t → ¬ (t = "" ∨ t.trim.length < 2) →
      llm = StageOutcome.raises →
      (full_processing_pipeline cfg sess now stt llm tts).2.count EventType.error = 1) ∧
    (∀ t, stt = StageOutcome.ok t → ¬ (t = "" ∨ t.trim.length < 2) →
      llm = StageOutcome.cancelled →
      (full_processing_pipeline cfg sess now stt llm tts).2.count EventType.error = 0) ∧
    (∀ t r, stt = StageOutcome.ok t → ¬ (t = "" ∨ t.trim.length < 2) →
      llm = StageOutcome.ok r → tts = StageOutcome.raises →
      (full_processing_pipeline cfg sess now stt llm tts).2.count EventType.error = 1) ∧
    (∀ t r, stt = StageOutcome.ok t → ¬ (t = "" ∨ t.trim.length < 2) →
      llm = StageOutcome.ok r → tts = StageOutcome.cancelled →
      (full_processing_pipeline cfg sess now stt llm tts).2.count EventType.error = 0) ∧
    (∀ t r a, stt = StageOutcome.ok t → ¬ (t = "" ∨ t.trim.length < 2) →
      llm = StageOutcome.ok r → tts = StageOutcome.ok a →
      (full_processing_pipeline cfg sess now stt llm tts).2.count EventType.error = 0) := by
  cases stt <;> cases llm <;> cases tts <;>
    simp only [full_processing_pipeline, update_state] <;>
    (try split_ifs) <;>
    simp_all [List.count_cons, List.count_append, List.count_nil] <;>
    intros <;>
    rcases ‹_ ∨ _› with h | h <;>
    simp_all <;>
    omega

theorem pipeline_terminal_listening_witness :
    (full_processing_pipeline HANDS_FREE_CONFIG sessW 0 StageOutcome.raises
      (StageOutcome.ok "") (StageOutcome.ok [])).2.count EventType.error = 1 :=
  (pipeline_terminal_listening HANDS_FREE_CONFIG sessW 0 StageOutcome.raises
    (StageOutcome.ok "") (StageOutcome.ok [])).2.2.1 rfl

/-! ## Amplitude lemmas (claims C7 and C10) -/

theorem decodeByte_bounds (b : Fin 256) : -128 ≤ decodeByte b ∧ decodeByte b ≤ 127 := by
  have hb : (b.val : ℤ) < 256 := by exact_mod_cast b.isLt
  have hb0 : (0 : ℤ) ≤ (b.val : ℤ) := by positivity
  unfold decodeByte
  split_ifs with h <;> omega

theorem decode16_bounds (b0 b1 : Fin 256) :
    -32768 ≤ decode16 b0 b1 ∧ decode16 b0 b1 ≤ 32767 := by
  have h0 : (b0.val : ℤ) < 256 := by exact_mod_cast b0.isLt
  have h1 : (b1.val : ℤ) < 256 := by exact_mod_cast b1.isLt
  have h0' : (0 : ℤ) ≤ (b0.val : ℤ) := by positivity
  have h1' : (0 : ℤ) ≤ (b1.val : ℤ) := by positivity
  simp only [decode16]
  split_ifs with h <;> constructor <;> omega

theorem decodeSamples_sq_le :
    ∀ a : List (Fin 256), ∀ s ∈ decodeSamples a, s * s ≤ 32768 * 32768
  | [] => by simp [decodeSamples]
  | [b] => by
      intro s hs
      simp [decodeSamples] at hs
      subst hs
      have h := decodeByte_bounds b
      nlinarith [h.1, h.2]
  | b0 :: b1 :: rest => by
      intro s hs
      rw [show decodeSamples (b0 :: b1 :: rest) =
        decode16 b0 b1 :: decodeSamples rest from rfl] at hs
      rcases List.mem_cons.mp hs with h | h
      · subst h
        have h := decode16_bounds b0 b1
        nlinarith [h.1, h.2]
      · exact decodeSamples_sq_le rest s h

theorem sumSquares_nonneg (l : List ℤ) : 0 ≤ sumSquares l := by
  induction l with
  | nil => simp [sumSquares]
  | cons x l ih =>
    have hx : 0 ≤ x * x := mul_self_nonneg x
    simp only [sumSquares, List.map_cons, List.sum_cons]
    have ih' : (0 : ℤ) ≤ (l.map (fun s => s * s)).sum := ih
    linarith

theorem sumSquares_le (l : List ℤ) (h : ∀ s ∈ l, s * s ≤ 32768 * 32768) :
    sumSquares l ≤ l.length * (32768 * 32768) := by
  induction l with
  | nil => simp [sumSquares]
  | cons x l ih =>
    have hx := h x (List.mem_cons_self x l)
    have ih' := ih fun s hs => h s (List.mem_cons_of_mem x hs)
    simp only [sumSquares, List.map_cons, List.sum_cons, List.length_cons] at *
    push_cast
    linarith

theorem meanSquare_nonneg (a : List (Fin 256)) : 0 ≤ meanSquare a := by
  unfold meanSquare
  apply div_nonneg
  · exact_mod_cast sumSquares_nonneg (decodeSamples a)
  · positivity

theorem meanSquare_le (a : List (Fin 256)) : meanSquare a ≤ 32768 * 32768 := by
  unfold meanSquare
  rcases Nat.eq_zero_or_pos (decodeSamples a).length with h | h
  · rw [h]
    norm_num
  · have hl : (0 : ℚ) < ((decodeSamples a).length : ℚ) := by exact_mod_cast h
    rw [div_le_iff hl]
    have hle : sumSquares (decodeSamples a) ≤
        (decodeSamples a).length * (32768 * 32768) :=
      sumSquares_le (decodeSamples a) (decodeSamples_sq_le a)
    calc ((sumSquares (decodeSamples a) : ℤ) : ℚ)
        ≤ (((decodeSamples a).length * (32768 * 32768) : ℤ) : ℚ) := by exact_mod_cast hle
      _ = 32768 * 32768 * ((decodeSamples a).length : ℚ) := by push_cast; ring

theorem calculate_amplitude_nonneg (a : List (Fin 256)) : 0 ≤ calculate_amplitude a := by
  unfold calculate_amplitude
  split_ifs
  · exact le_refl 0
  · positivity

theorem calculate_amplitude_le_one (a : List (Fin 256)) : calculate_amplitude a ≤ 1 := by
  unfold calculate_amplitude
  split_ifs with h
  · norm_num
  · rw [div_le_one (by norm_num : (0 : ℝ) < 32768)]
    have h1 : ((meanSquare a : ℚ) : ℝ) ≤ (((32768 * 32768 : ℚ)) : ℝ) := by
      exact_mod_cast meanSquare_le a
    calc Real.sqrt ((meanSquare a : ℚ) : ℝ)
        ≤ Real.sqrt (((32768 * 32768 : ℚ)) : ℝ) := Real.sqrt_le_sqrt h1
      _ = 32768 := by
          rw [show (((32768 * 32768 : ℚ)) : ℝ) = (32768 : ℝ) ^ 2 by norm_num]
          exact Real.sqrt_sq (by norm_num)

theorem decodeSamples_zero :
    ∀ a : List (Fin 256), (∀ x ∈ a, x = (0 : Fin 256)) → ∀ s ∈ decodeSamples a, s = 0
  | [] => by simp [decodeSamples]
  | [b] => by
      intro h s hs
      have hb : b = 0 := h b (by simp)
      subst hb
      simp [decodeSamples, decodeByte] at hs
      simpa using hs
  | b0 :: b1 :: rest => by
      intro h s hs
      rw [show decodeSamples (b0 :: b1 :: rest) =
        decode16 b0 b1 :: decodeSamples rest from rfl] at hs
      have hb0 : b0 = 0 := h b0 (by simp)
      have hb1 : b1 = 0 := h b1 (by simp)
      rcases List.mem_cons.mp hs with hx | hx
      · subst hx hb0 hb1
        simp [decode16]
      · exact decodeSamples_zero rest (fun x hx2 => h x (by simp [hx2])) s hx

theorem sumSquares_zero (l : List ℤ) (h : ∀ s ∈ l, s = 0) : sumSquares l = 0 := by
  induction l with
  | nil => simp [sumSquares]
  | cons x l ih =>
    have hx := h x (List.mem_cons_self x l)
    subst hx
    simp only [sumSquares, List.map_cons, List.sum_cons] at *
    rw [ih fun s hs => h s (List.mem_cons_of_mem _ hs)]
    ring

theorem decodeSamples_length :
    ∀ a : List (Fin 256), (decodeSamples a).length = (a.length + 1) / 2
  | [] => by norm_num [decodeSamples]
  | [b] => by norm_num [decodeSamples]
  | b0 :: b1 :: rest => by
      rw [show decodeSamples (b0 :: b1 :: rest) =
        decode16 b0 b1 :: decodeSamples rest from rfl]
      simp only [List.length_cons]
      rw [decodeSamples_length rest]
      omega

theorem decodeSamples_append_singleton :
    ∀ (pre : List (Fin 256)) (b : Fin 256), pre.length % 2 = 0 →
      decodeSamples (pre ++ [b]) = decodeSamples pre ++ [decodeByte b]
  | [], b, _ => rfl
  | [x], b, h => by simp at h
  | x :: y :: rest, b, h => by
      have ih := decodeSamples_append_singleton rest b (by
        simp only [List.length_cons] at h; omega)
      simp only [List.cons_append]
      rw [show decodeSamples (x :: y :: (rest ++ [b])) =
        decode16 x y :: decodeSamples (rest ++ [b]) from rfl]
      rw [show decodeSamples (x :: y :: rest) =
        decode16 x y :: decodeSamples rest from rfl]
      rw [ih]
      rfl

/-! ## Claim C7 -/

/-- **C7 (amended).** `_calculate_amplitude` returns 0.0 for fewer than two
bytes; it is non-negative; an all-zero buffer yields exactly 0.0; for at least
two bytes the returned value is the RMS of the decoded samples divided by
32768 (its square times the sample count and 32768² recovers the sum of squared
samples); and — contrary to the claim's "may slightly exceed 1.0 on clipping" —
it never exceeds 1.0, the maximum 1 being attained at the full-scale sample
`0x00 0x80` (= -32768).  The code applies no explicit cap; the bound is
intrinsic. -/
theorem amplitude_spec_amended :
    (∀ audio : List (Fin 256), audio.length < 2 → calculate_amplitude audio = 0) ∧
    (∀ audio : List (Fin 256), 0 ≤ calculate_amplitude audio) ∧
    (∀ audio : List (Fin 256), (∀ x ∈ audio, x = (0 : Fin 256)) →
      calculate_amplitude audio = 0) ∧
    (∀ audio : List (Fin 256), 2 ≤ audio.length →
      (calculate_amplitude audio * 32768) ^ 2 * ((decodeSamples audio).length : ℝ) =
        ((sumSquares (decodeSamples audio) : ℤ) : ℝ)) ∧
    (∀ audio : List (Fin 256), calculate_amplitude audio ≤ 1) ∧
    calculate_amplitude [⟨0, by norm_num⟩, ⟨128, by norm_num⟩] = 1 := by
  refine ⟨?_, calculate_amplitude_nonneg, ?_, ?_, calculate_amplitude_le_one, ?_⟩
  · intro audio h
    rw [calculate_amplitude, if_pos h]
  · intro audio h
    unfold calculate_amplitude
    split_ifs
    · rfl
    · have hz : meanSquare audio = 0 := by
        unfold meanSquare
        rw [sumSquares_zero (decodeSamples audio) (decodeSamples_zero audio h)]
        simp
      rw [hz]
      simp
  · intro audio h
    have hlen : 0 < (decodeSamples audio).length := by
      rw [decodeSamples_length]; omega
    have hlenQ : ((decodeSamples audio).length : ℝ) ≠ 0 := by
      exact_mod_cast Nat.pos_iff_ne_zero.mp hlen
    rw [calculate_amplitude, if_neg (by omega)]
    rw [div_mul_cancel₀ _ (by norm_num : (32768 : ℝ) ≠ 0)]
    rw [Real.sq_sqrt (by exact_mod_cast meanSquare_nonneg audio)]
    have hms : ((meanSquare audio : ℚ) : ℝ) =
        ((sumSquares (decodeSamples audio) : ℤ) : ℝ) /
          ((decodeSamples audio).length : ℝ) := by
      unfold meanSquare
      push_cast
      ring
    rw [hms, div_mul_cancel₀ _ hlenQ]
  · rw [calculate_amplitude, if_neg (by norm_num)]
    have hms : meanSquare [⟨0, by norm_num⟩, ⟨128, by norm_num⟩] = 32768 * 32768 := by
      norm_num [meanSquare, decodeSamples, decode16, sumSquares]
    rw [hms]
    rw [show (((32768 * 32768 : ℚ)) : ℝ) = (32768 : ℝ) ^ 2 by norm_num]
    rw [Real.sqrt_sq (by norm_num)]
    norm_num

/-- **C7 (counterexample).** The claim says the amplitude "may slightly exceed
1.0 on clipping"; in fact no byte buffer whatsoever produces a value above 1,
since every decoded sample has magnitude at most 32768. -/
theorem amplitude_exceeds_one_impossible :
    ¬ ∃ audio : List (Fin 256), 1 < calculate_amplitude audio := by
  rintro ⟨audio, h⟩
  exact absurd h (not_lt.mpr (calculate_amplitude_le_one audio))

theorem amplitude_spec_amended_witness :
    calculate_amplitude [] = 0 ∧
    (calculate_amplitude [⟨0, by norm_num⟩, ⟨128, by norm_num⟩, ⟨0, by norm_num⟩,
        ⟨128, by norm_num⟩] * 32768) ^ 2 *
      ((decodeSamples [⟨0, by norm_num⟩, ⟨128, by norm_num⟩, ⟨0, by norm_num⟩,
        ⟨128, by norm_num⟩]).length : ℝ) =
      ((sumSquares (decodeSamples [⟨0, by norm_num⟩, ⟨128, by norm_num⟩, ⟨0, by norm_num⟩,
        ⟨128, by norm_num⟩]) : ℤ) : ℝ) :=
  ⟨amplitude_spec_amended.1 [] (by norm_num),
   amplitude_spec_amended.2.2.2.1 _ (by norm_num)⟩

/-! ## Claim C10 -/

/-- **C10.** `_calculate_amplitude` is total and non-negative on every byte
buffer; an odd-length buffer is not rejected: it splits as an even-length
prefix plus one trailing byte, which is decoded as a one-byte signed sample in
[-128, 127] and appended to the decoded 16-bit samples entering the RMS. -/
theorem amplitude_total_odd_bytes :
    (∀ audio : List (Fin 256), 0 ≤ calculate_amplitude audio) ∧
    (∀ (pre : List (Fin 256)) (b : Fin 256), pre.length % 2 = 0 →
      decodeSamples (pre ++ [b]) = decodeSamples pre ++ [decodeByte b]) ∧
    (∀ b : Fin 256, -128 ≤ decodeByte b ∧ decodeByte b ≤ 127) ∧
    (∀ audio : List (Fin 256), audio.length % 2 = 1 →
      ∃ (pre : List (Fin 256)) (b : Fin 256), audio = pre ++ [b] ∧
        pre.length % 2 = 0 ∧
        decodeSamples audio = decodeSamples pre ++ [decodeByte b]) := by
  refine ⟨calculate_amplitude_nonneg, decodeSamples_append_singleton, decodeByte_bounds, ?_⟩
  intro audio h
  have hne : audio ≠ [] := by
    intro hc; rw [hc] at h; simp at h
  have hsplit : audio.dropLast ++ [audio.getLast hne] = audio :=
    List.dropLast_append_getLast hne
  have hlen : audio.dropLast.length % 2 = 0 := by
    have : audio.dropLast.length = audio.length - 1 := List.length_dropLast audio
    omega
  refine ⟨audio.dropLast, audio.getLast hne, hsplit.symm, hlen, ?_⟩
  conv_lhs => rw [← hsplit]
  exact decodeSamples_append_singleton audio.dropLast (audio.getLast hne) hlen

theorem amplitude_total_odd_bytes_witness :
    decodeSamples [⟨1, by norm_num⟩, ⟨2, by norm_num⟩, ⟨255, by norm_num⟩] =
      decodeSamples [⟨1, by norm_num⟩, ⟨2, by norm_num⟩] ++
        [decodeByte ⟨255, by norm_num⟩] :=
  amplitude_total_odd_bytes.2.1 [⟨1, by norm_num⟩, ⟨2, by norm_num⟩]
    ⟨255, by norm_num⟩ (by norm_num)

end VoiceChat
